import Mathlib

/-!
Shallow embedding of the `network_stats` counter-monitor component
(`src/network_stats.cpp`, `src/network_stats.h`, error macros from
`src/program_IO.h`).

Modelling conventions:
* File contents are `List Char`; a per-counter stats file is a `Resource`
  (`ok content` for a readable regular file, `readError` for a file whose
  `read(2)` fails with -1).
* An open file descriptor's state is a `Handle`: the resource plus the
  current file offset (`pos`), since `update_one` reuses handles and must
  rewind them with `lseek`.
* Machine integers: `uint64_t` values are `Nat` (reduced mod 2^64 at the
  C cast), C `long` is `Int` clamped to [LONG_MIN, LONG_MAX] by `strtol`.
* Exceptions: the `ERROR` macro (`error()` in program_IO.h: throws
  `std::runtime_error` and appends `strerror(errno)`) is `NetError.ioFailure`;
  the `RUNTIME` macro (`runtime()`: throws without the OS error string) is
  `NetError.formatAnomaly`.  C++ exception propagation out of a loop body is
  modelled by returning the partially mutated state together with
  `some err`.
* `errno` is assumed clear (0) on entry to `update_one`'s `strtol` call:
  the preceding `lseek`/`read` succeeded on the paths that reach it, so the
  only way `errno && errno != EINTR` fires is `strtol` setting `ERANGE`.
-/

namespace NetworkStats

/-- `enum rx_fields` from network_stats.h (order = declaration order,
which is also `std::map` key order). -/
inductive rx_fields where
  | RX_BYTES | RX_COMPRESSED | RX_CRC_ERRORS | RX_DROPPED | RX_ERRORS
  | RX_FIFO_ERRORS | RX_FRAME_ERRORS | RX_LENGTH_ERRORS | RX_MISSED_ERRORS
  | RX_OVER_ERRORS | RX_PACKETS
deriving DecidableEq, Repr

/-- `enum tx_fields` from network_stats.h. -/
inductive tx_fields where
  | TX_ABORTED_ERRORS | TX_BYTES | TX_CARRIER_ERRORS | TX_COMPRESSED
  | TX_DROPPED | TX_ERRORS | TX_FIFO_ERRORS | TX_HEARTBEAT_ERRORS
  | TX_PACKETS | TX_WINDOW_ERRORS
deriving DecidableEq, Repr

open rx_fields tx_fields

/-- All rx kinds in `std::map<rx_fields, netdata>` iteration order
(ascending enum value). -/
def rxAll : List rx_fields :=
  [RX_BYTES, RX_COMPRESSED, RX_CRC_ERRORS, RX_DROPPED, RX_ERRORS,
   RX_FIFO_ERRORS, RX_FRAME_ERRORS, RX_LENGTH_ERRORS, RX_MISSED_ERRORS,
   RX_OVER_ERRORS, RX_PACKETS]

/-- All tx kinds in map iteration order. -/
def txAll : List tx_fields :=
  [TX_ABORTED_ERRORS, TX_BYTES, TX_CARRIER_ERRORS, TX_COMPRESSED,
   TX_DROPPED, TX_ERRORS, TX_FIFO_ERRORS, TX_HEARTBEAT_ERRORS,
   TX_PACKETS, TX_WINDOW_ERRORS]

/-- `struct netdata` (network_stats.h): cached `uint64_t value` and the
open file descriptor `int fd`. -/
structure netdata where
  value : Nat
  fd : Int
deriving DecidableEq, Repr

/-- A per-counter stats file as the OS presents it to this process:
either readable content, or a file whose `read(2)` fails (returns -1). -/
inductive Resource where
  | ok (content : List Char)
  | readError
deriving DecidableEq, Repr

/-- State of one open file descriptor: the underlying resource and the
current file offset. -/
structure Handle where
  res : Resource
  pos : Nat
deriving DecidableEq, Repr

/-- Error classes of the two throwing macros in network_stats.cpp
(see program_IO.h): `ioFailure` = `ERROR(...)` = `error()` macro, which
throws `std::runtime_error` with `strerror(errno)` appended (the OS
last-error description); `formatAnomaly` = `RUNTIME(...)` = `runtime()`
macro, the distinct reporting path without the OS error description. -/
inductive NetError where
  | ioFailure
  | formatAnomaly
deriving DecidableEq, Repr

/-- `READ_SIZE` (network_stats.cpp, anonymous enum): byte bound for each
stats-file read. -/
def READ_SIZE : Nat := 32

/-- `LONG_MAX` on the 64-bit target: 2^63 - 1. -/
def LONG_MAX : Int := 2 ^ 63 - 1

/-- `LONG_MIN` on the 64-bit target: -2^63. -/
def LONG_MIN : Int := -(2 ^ 63)

/-- `read(fd, buf, n)` on a handle: returns (return value, bytes read,
handle after the read).  For a readable file it reads up to `n` bytes
from the current offset and advances the offset; for a failing file it
returns -1 and leaves the handle unchanged. -/
def readSys (h : Handle) (n : Nat) : Int × List Char × Handle :=
  match h.res with
  | .readError => (-1, [], h)
  | .ok content =>
      let got := (content.drop h.pos).take n
      ((got.length : Int), got, { h with pos := h.pos + got.length })

/-- C `isspace` in the default locale (the characters `strtol` skips). -/
def isSpaceC (c : Char) : Bool :=
  c == ' ' || c == '\t' || c == '\n' || c == '\x0b' || c == '\x0c' || c == '\r'

/-- The C string stored in the buffer: characters up to the first NUL. -/
def cstring (buf : List Char) : List Char :=
  buf.takeWhile (fun c => c != Char.ofNat 0)

/-- Optional sign handling of `strtol`: a leading `-` or `+` is consumed
and remembered. -/
def strtolSign (s : List Char) : Bool × List Char :=
  match s with
  | [] => (false, [])
  | c :: rest =>
      if c = '-' then (true, rest)
      else if c = '+' then (false, rest)
      else (false, s)

/-- One step of decimal accumulation: `acc * 10 + digit value of c`. -/
def digitStep (acc : Nat) (c : Char) : Nat :=
  acc * 10 + (c.toNat - 48)

/-- `strtol(nptr, &endptr, 10)` on the C string `s`, returning
(result, whether `errno` was set to `ERANGE`).  Skips leading
whitespace, consumes an optional sign, then the longest run of decimal
digits.  If there are no digits it returns 0 with no error (`errno` is
NOT set for an empty conversion — glibc reports that case only through
`endptr`, which network_stats.cpp never inspects).  Out-of-range values
are clamped to `LONG_MAX` / `LONG_MIN` with `ERANGE`. -/
def strtol (s : List Char) : Int × Bool :=
  let s1 := s.dropWhile isSpaceC
  let p := strtolSign s1
  let digs := p.2.takeWhile Char.isDigit
  if digs.length = 0 then (0, false)
  else
    let mag : Nat := digs.foldl digitStep 0
    let v : Int := if p.1 then -(mag : Int) else (mag : Int)
    if v > LONG_MAX then (LONG_MAX, true)
    else if v < LONG_MIN then (LONG_MIN, true)
    else (v, false)

/-- The C cast `(uint64_t)value` of a `long`: reduce mod 2^64. -/
def toUInt64cast (v : Int) : Nat :=
  (v % (2 ^ 64 : Int)).toNat

/-- `network_stats::update_one(int fd)` (network_stats.cpp:219-245):
rewind the handle with `lseek(fd, 0, SEEK_SET)`, `read` up to
`READ_SIZE` bytes; if exactly `READ_SIZE` came back raise `RUNTIME`
(format anomaly), if zero or fewer raise `ERROR` (I/O failure);
null-terminate at index `r_ret`, run `strtol` base 10 on the buffer, and
raise `ERROR` if `errno` (here: `ERANGE` from `strtol`) is set; finally
cast the `long` to `uint64_t`.  Returns the value and the handle as the
read left it. -/
def update_one (h : Handle) : Except NetError (Nat × Handle) :=
  let h0 : Handle := { h with pos := 0 }
  match readSys h0 READ_SIZE with
  | (r_ret, data, h1) =>
    if r_ret = (READ_SIZE : Int) then .error .formatAnomaly
    else if r_ret ≤ 0 then .error .ioFailure
    else
      match strtol (cstring data) with
      | (value, erange) =>
        if erange then .error .ioFailure
        else .ok (toUInt64cast value, h1)

/-- The value `update_one` computes for a resource (handle position is
irrelevant because `update_one` rewinds first; this projection reads
from offset 0). -/
def uval (res : Resource) : Except NetError Nat :=
  match update_one ⟨res, 0⟩ with
  | .error e => .error e
  | .ok (v, _) => .ok v

/-- `std::map<K, netdata>` (the `rx_to_update_` / `tx_to_update_`
members): a kind is tracked iff it has an entry. -/
def StatMap (K : Type) : Type := K → Option netdata

/-- The empty map: the state of `rx_to_update_`/`tx_to_update_` right
after construction (the constructor never touches them). -/
def emptyStat (K : Type) : StatMap K := fun _ => none

/-- The body of `update_receive_data` / `update_transmit_data`
(network_stats.cpp:332-358): iterate over the map entries in key order
and execute `i->second.value = update_one(i->second.fd)` for each.  The
environment `env` maps a file descriptor to the resource it reads.  An
exception from `update_one` propagates immediately: the loop stops and
the map is left as mutated so far (`(current map, some e)`); on normal
completion the result is `(final map, none)`.  Untracked kinds (no map
entry) are simply not visited. -/
def update_stats_loop {K : Type} [DecidableEq K] (env : Int → Resource) :
    List K → StatMap K → StatMap K × Option NetError
  | [], m => (m, none)
  | k :: ks, m =>
    match m k with
    | none => update_stats_loop env ks m
    | some nd =>
      match update_one ⟨env nd.fd, 0⟩ with
      | .error e => (m, some e)
      | .ok (v, _) =>
          update_stats_loop env ks
            (fun j => if j = k then some ⟨v, nd.fd⟩ else m j)

/-- `network_stats::update_receive_data` (network_stats.cpp:332-342). -/
def update_receive_data (env : Int → Resource) (m : StatMap rx_fields) :
    StatMap rx_fields × Option NetError :=
  update_stats_loop env rxAll m

/-- `network_stats::update_transmit_data` (network_stats.cpp:348-358). -/
def update_transmit_data (env : Int → Resource) (m : StatMap tx_fields) :
    StatMap tx_fields × Option NetError :=
  update_stats_loop env txAll m

/-- `network_stats::update_all` (network_stats.cpp:325-330): update the
receive side, then the transmit side.  An exception from the receive
side propagates before `update_transmit_data` is ever called. -/
def update_all (env : Int → Resource) (rxm : StatMap rx_fields)
    (txm : StatMap tx_fields) :
    (StatMap rx_fields × StatMap tx_fields) × Option NetError :=
  match update_receive_data env rxm with
  | (rxm1, some e) => ((rxm1, txm), some e)
  | (rxm1, none) =>
    match update_transmit_data env txm with
    | (txm1, e) => ((rxm1, txm1), e)

/-- The body of `set_rx_stats_to_update` / `set_tx_stats_to_update`
(network_stats.cpp:251-318): for each requested kind, if it is already
in the map log "already monitoring" and `continue`; otherwise `open` the
stats file read-only (`openOk k` says whether that open succeeds —
`next_fd` plays the OS fd allocator, handing out increasing
descriptors), raise `ERROR` if the open fails (leaving the entries
inserted so far in place), else insert `netdata(fd)` (initial value 0).
Besides the final map and allocator state the model returns the list of
kinds actually opened, in order, so that "no second open occurs" is
expressible. -/
def set_stats_loop {K : Type} [DecidableEq K] (openOk : K → Bool) :
    List K → StatMap K → Int → StatMap K × Int × List K × Option NetError
  | [], m, next_fd => (m, next_fd, [], none)
  | k :: ks, m, next_fd =>
    if (m k).isSome then
      set_stats_loop openOk ks m next_fd
    else if openOk k then
      match set_stats_loop openOk ks
          (fun j => if j = k then some ⟨0, next_fd⟩ else m j) (next_fd + 1) with
      | (m1, fd1, opened, e) => (m1, fd1, k :: opened, e)
    else
      (m, next_fd, [], some .ioFailure)

/-- `network_stats::set_rx_stats_to_update` (network_stats.cpp:251-281);
the `std::set` argument is its sorted element list. -/
def set_rx_stats_to_update (openOk : rx_fields → Bool)
    (to_update : List rx_fields) (m : StatMap rx_fields) (next_fd : Int) :
    StatMap rx_fields × Int × List rx_fields × Option NetError :=
  set_stats_loop openOk to_update m next_fd

/-- `network_stats::set_tx_stats_to_update` (network_stats.cpp:289-318). -/
def set_tx_stats_to_update (openOk : tx_fields → Bool)
    (to_update : List tx_fields) (m : StatMap tx_fields) (next_fd : Int) :
    StatMap tx_fields × Int × List tx_fields × Option NetError :=
  set_stats_loop openOk to_update m next_fd

/-- `network_stats::fetch_one_rx` (network_stats.cpp:196-201): cached
value, or 0 when the kind is not monitored. -/
def fetch_one_rx (m : StatMap rx_fields) (r : rx_fields) : Nat :=
  match m r with
  | none => 0
  | some nd => nd.value

/-- `network_stats::fetch_one_tx` (network_stats.cpp:207-212). -/
def fetch_one_tx (m : StatMap tx_fields) (t : tx_fields) : Nat :=
  match m t with
  | none => 0
  | some nd => nd.value

/-- `struct receive_data` (network_stats.h:11-24). -/
structure receive_data where
  bytes : Nat
  compressed : Nat
  CRC_errors : Nat
  dropped : Nat
  errors : Nat
  FIFO_errors : Nat
  frame_errors : Nat
  length_errors : Nat
  missed_errors : Nat
  over_errors : Nat
  packets : Nat
deriving DecidableEq, Repr

/-- `struct transmit_data` (network_stats.h:26-38). -/
structure transmit_data where
  aborted_errors : Nat
  bytes : Nat
  carrier_errors : Nat
  compressed : Nat
  dropped : Nat
  errors : Nat
  FIFO_errors : Nat
  heartbeat_errors : Nat
  packets : Nat
  window_errors : Nat
deriving DecidableEq, Repr

/-- `network_stats::get_receive_data` (network_stats.cpp:364-380). -/
def get_receive_data (m : StatMap rx_fields) : receive_data where
  bytes         := fetch_one_rx m RX_BYTES
  compressed    := fetch_one_rx m RX_COMPRESSED
  CRC_errors    := fetch_one_rx m RX_CRC_ERRORS
  dropped       := fetch_one_rx m RX_DROPPED
  errors        := fetch_one_rx m RX_ERRORS
  FIFO_errors   := fetch_one_rx m RX_FIFO_ERRORS
  frame_errors  := fetch_one_rx m RX_FRAME_ERRORS
  length_errors := fetch_one_rx m RX_LENGTH_ERRORS
  missed_errors := fetch_one_rx m RX_MISSED_ERRORS
  over_errors   := fetch_one_rx m RX_OVER_ERRORS
  packets       := fetch_one_rx m RX_PACKETS

/-- `network_stats::get_transmit_data` (network_stats.cpp:382-397). -/
def get_transmit_data (m : StatMap tx_fields) : transmit_data where
  aborted_errors   := fetch_one_tx m TX_ABORTED_ERRORS
  bytes            := fetch_one_tx m TX_BYTES
  carrier_errors   := fetch_one_tx m TX_CARRIER_ERRORS
  compressed       := fetch_one_tx m TX_COMPRESSED
  dropped          := fetch_one_tx m TX_DROPPED
  errors           := fetch_one_tx m TX_ERRORS
  FIFO_errors      := fetch_one_tx m TX_FIFO_ERRORS
  heartbeat_errors := fetch_one_tx m TX_HEARTBEAT_ERRORS
  packets          := fetch_one_tx m TX_PACKETS
  window_errors    := fetch_one_tx m TX_WINDOW_ERRORS

/-- The snapshot field that `get_receive_data` fills from a given rx
kind (field-selection view of network_stats.cpp:364-380). -/
def rx_select (d : receive_data) : rx_fields → Nat
  | RX_BYTES => d.bytes
  | RX_COMPRESSED => d.compressed
  | RX_CRC_ERRORS => d.CRC_errors
  | RX_DROPPED => d.dropped
  | RX_ERRORS => d.errors
  | RX_FIFO_ERRORS => d.FIFO_errors
  | RX_FRAME_ERRORS => d.frame_errors
  | RX_LENGTH_ERRORS => d.length_errors
  | RX_MISSED_ERRORS => d.missed_errors
  | RX_OVER_ERRORS => d.over_errors
  | RX_PACKETS => d.packets

/-- The snapshot field that `get_transmit_data` fills from a given tx
kind (field-selection view of network_stats.cpp:382-397). -/
def tx_select (d : transmit_data) : tx_fields → Nat
  | TX_ABORTED_ERRORS => d.aborted_errors
  | TX_BYTES => d.bytes
  | TX_CARRIER_ERRORS => d.carrier_errors
  | TX_COMPRESSED => d.compressed
  | TX_DROPPED => d.dropped
  | TX_ERRORS => d.errors
  | TX_FIFO_ERRORS => d.FIFO_errors
  | TX_HEARTBEAT_ERRORS => d.heartbeat_errors
  | TX_PACKETS => d.packets
  | TX_WINDOW_ERRORS => d.window_errors

/-- `network_stats::get_rx_bytes` (network_stats.cpp:399-403). -/
def get_rx_bytes (m : StatMap rx_fields) : Nat := fetch_one_rx m RX_BYTES

/-- `network_stats::get_rx_packets` (network_stats.cpp:405-409). -/
def get_rx_packets (m : StatMap rx_fields) : Nat := fetch_one_rx m RX_PACKETS

/-- `network_stats::get_tx_bytes` (network_stats.cpp:411-415). -/
def get_tx_bytes (m : StatMap tx_fields) : Nat := fetch_one_tx m TX_BYTES

/-- `network_stats::get_tx_packets` (network_stats.cpp:417-421). -/
def get_tx_packets (m : StatMap tx_fields) : Nat := fetch_one_tx m TX_PACKETS

/-- One destructor loop (network_stats.cpp:169-182): for each map entry
in key order execute `close(i->second.fd);`.  `closeOk fd` says whether
that `close(2)` succeeds; the body computes the return value and drops
it — it does not test it, raise on it, or emit any report — and
continues with the next entry.  Returns the descriptors passed to
`close`, in order, and the list of report/log lines the loop emitted. -/
def close_loop (closeOk : Int → Bool) : List Int → List Int × List String
  | [] => ([], [])
  | fd :: fds =>
    let _ret : Int := if closeOk fd then 0 else -1
    match close_loop closeOk fds with
    | (closed, reports) => (fd :: closed, reports)

/-- The file descriptors of all tracked counters, rx map entries first
then tx map entries, each in key order — exactly the sequence of `close`
calls the destructor makes. -/
def trackedFds (rxm : StatMap rx_fields) (txm : StatMap tx_fields) :
    List Int :=
  rxAll.filterMap (fun k => (rxm k).map netdata.fd) ++
    txAll.filterMap (fun k => (txm k).map netdata.fd)

/-- `network_stats::~network_stats` (network_stats.cpp:164-183): close
every rx handle, then every tx handle.  Destructors swallow nothing
here because nothing throws: each iteration just calls `close`. -/
def destructor (closeOk : Int → Bool) (rxm : StatMap rx_fields)
    (txm : StatMap tx_fields) : List Int × List String :=
  close_loop closeOk (trackedFds rxm txm)

/-- Decimal rendering of a natural number (most significant digit
first); used to state which resource contents denote a given counter
value. -/
def natToDigits (n : Nat) : List Char :=
  if h : n < 10 then [Char.ofNat (48 + n)]
  else natToDigits (n / 10) ++ [Char.ofNat (48 + n % 10)]
decreasing_by exact Nat.div_lt_self (by omega) (by omega)

/-! ### Helper lemmas -/

theorem mem_rxAll (k : rx_fields) : k ∈ rxAll := by
  cases k <;> simp [rxAll]

theorem mem_txAll (k : tx_fields) : k ∈ txAll := by
  cases k <;> simp [txAll]

theorem rx_select_get (m : StatMap rx_fields) (k : rx_fields) :
    rx_select (get_receive_data m) k = fetch_one_rx m k := by
  cases k <;> rfl

theorem tx_select_get (m : StatMap tx_fields) (k : tx_fields) :
    tx_select (get_transmit_data m) k = fetch_one_tx m k := by
  cases k <;> rfl

theorem close_loop_spec (closeOk : Int → Bool) (fds : List Int) :
    close_loop closeOk fds = (fds, []) := by
  induction fds with
  | nil => rfl
  | cons fd fds ih => simp [close_loop, ih]

theorem trackedFds_mem_rx (rxm : StatMap rx_fields) (txm : StatMap tx_fields)
    (k : rx_fields) (nd : netdata) (h : rxm k = some nd) :
    nd.fd ∈ trackedFds rxm txm := by
  unfold trackedFds
  exact List.mem_append_left _
    (List.mem_filterMap.2 ⟨k, mem_rxAll k, by simp [h]⟩)

theorem trackedFds_mem_tx (rxm : StatMap rx_fields) (txm : StatMap tx_fields)
    (k : tx_fields) (nd : netdata) (h : txm k = some nd) :
    nd.fd ∈ trackedFds rxm txm := by
  unfold trackedFds
  exact List.mem_append_right _
    (List.mem_filterMap.2 ⟨k, mem_txAll k, by simp [h]⟩)

theorem takeWhile_all {α : Type} (p : α → Bool) (l : List α)
    (hl : ∀ x ∈ l, p x = true) : l.takeWhile p = l := by
  induction l with
  | nil => rfl
  | cons a l ih =>
    rw [List.takeWhile_cons, if_pos (hl a (List.mem_cons_self a l)),
      ih (fun x hx => hl x (List.mem_cons_of_mem a hx))]

theorem takeWhile_all_append {α : Type} (p : α → Bool) (l : List α) (c : α)
    (hl : ∀ x ∈ l, p x = true) (hc : p c = false) :
    (l ++ [c]).takeWhile p = l := by
  induction l with
  | nil => simpa [List.takeWhile_cons] using hc
  | cons a l ih =>
    rw [List.cons_append, List.takeWhile_cons,
      if_pos (hl a (List.mem_cons_self a l)),
      ih (fun x hx => hl x (List.mem_cons_of_mem a hx))]

theorem update_stats_loop_untouched {K : Type} [DecidableEq K]
    (env : Int → Resource) (ks : List K) (m : StatMap K) (j : K)
    (hj : j ∉ ks) : (update_stats_loop env ks m).1 j = m j := by
  induction ks generalizing m with
  | nil => rfl
  | cons k ks ih =>
    have hjk : j ≠ k := fun h => hj (h ▸ List.mem_cons_self k ks)
    have hjks : j ∉ ks := fun h => hj (List.mem_cons_of_mem _ h)
    cases hmk : m k with
    | none => simpa [update_stats_loop, hmk] using ih m hjks
    | some nd =>
      cases hu : update_one ⟨env nd.fd, 0⟩ with
      | error e => simp [update_stats_loop, hmk, hu]
      | ok vh =>
        obtain ⟨v, h1⟩ := vh
        have := ih (fun j2 => if j2 = k then some ⟨v, nd.fd⟩ else m j2) hjks
        simp only [update_stats_loop, hmk, hu] at this ⊢
        rw [this, if_neg hjk]

theorem update_stats_loop_shape {K : Type} [DecidableEq K]
    (env : Int → Resource) (ks : List K) (m : StatMap K) (j : K) :
    ((update_stats_loop env ks m).1 j).map netdata.fd =
      (m j).map netdata.fd := by
  induction ks generalizing m with
  | nil => rfl
  | cons k ks ih =>
    cases hmk : m k with
    | none => simpa [update_stats_loop, hmk] using ih m
    | some nd =>
      cases hu : update_one ⟨env nd.fd, 0⟩ with
      | error e => simp [update_stats_loop, hmk, hu]
      | ok vh =>
        obtain ⟨v, h1⟩ := vh
        have := ih (fun j2 => if j2 = k then some ⟨v, nd.fd⟩ else m j2)
        simp only [update_stats_loop, hmk, hu] at this ⊢
        rw [this]
        by_cases hjk : j = k
        · subst hjk; rw [if_pos rfl, hmk]; rfl
        · rw [if_neg hjk]

theorem uval_ok_of_update (res : Resource) (v : Nat) (h1 : Handle)
    (h : update_one ⟨res, 0⟩ = .ok (v, h1)) : uval res = .ok v := by
  simp [uval, h]

theorem uval_error_of_update (res : Resource) (e : NetError)
    (h : update_one ⟨res, 0⟩ = .error e) : uval res = .error e := by
  simp [uval, h]

/-- If the update loop completes without error, every counter that was
tracked on entry ends up holding the value `update_one` reads from its
resource, with its descriptor unchanged. -/
theorem update_stats_loop_success {K : Type} [DecidableEq K]
    (env : Int → Resource) (ks : List K) :
    ∀ (m : StatMap K) (k : K) (nd : netdata),
      (update_stats_loop env ks m).2 = none → k ∈ ks → m k = some nd →
      ∃ v, uval (env nd.fd) = .ok v ∧
        (update_stats_loop env ks m).1 k = some ⟨v, nd.fd⟩ := by
  induction ks with
  | nil => intro m k nd _ hk _; cases hk
  | cons k0 ks ih =>
    intro m k nd hnone hk hm
    cases hmk : m k0 with
    | none =>
      have hne : k ≠ k0 := fun h => by rw [h, hmk] at hm; cases hm
      have hk' : k ∈ ks := by
        cases List.mem_cons.1 hk with
        | inl h => exact absurd h hne
        | inr h => exact h
      simp only [update_stats_loop, hmk] at hnone ⊢
      exact ih m k nd hnone hk' hm
    | some nd0 =>
      cases hu : update_one ⟨env nd0.fd, 0⟩ with
      | error e => simp [update_stats_loop, hmk, hu] at hnone
      | ok vh =>
        obtain ⟨v0, h1⟩ := vh
        simp only [update_stats_loop, hmk, hu] at hnone ⊢
        by_cases hkk : k = k0
        · subst hkk
          have hnd : nd0 = nd := by
            rw [hm] at hmk; exact (Option.some.inj hmk).symm
          subst hnd
          by_cases hmem : k ∈ ks
          · have hm1 : (fun j => if j = k then some (⟨v0, nd0.fd⟩ : netdata)
                else m j) k = some ⟨v0, nd0.fd⟩ := by simp
            obtain ⟨v, hv, hfin⟩ := ih _ k ⟨v0, nd0.fd⟩ hnone hmem hm1
            exact ⟨v, hv, hfin⟩
          · have hfin := update_stats_loop_untouched env ks
              (fun j => if j = k then some (⟨v0, nd0.fd⟩ : netdata) else m j)
              k hmem
            refine ⟨v0, uval_ok_of_update _ _ _ hu, ?_⟩
            rw [hfin]; simp
        · have hk' : k ∈ ks := by
            cases List.mem_cons.1 hk with
            | inl h => exact absurd h hkk
            | inr h => exact h
          have hm1 : (fun j => if j = k0 then some (⟨v0, nd0.fd⟩ : netdata)
              else m j) k = some nd := by
            simp only [if_neg hkk]; exact hm
          exact ih _ k nd hnone hk' hm1

/-- If the update loop stops with an error, that error is the
`update_one` failure of some tracked counter, and that counter's entry
(value and descriptor) is exactly what it was before the call. -/
theorem update_stats_loop_fail {K : Type} [DecidableEq K]
    (env : Int → Resource) (ks : List K) (m : StatMap K) (e : NetError)
    (he : (update_stats_loop env ks m).2 = some e) :
    ∃ k, k ∈ ks ∧ ∃ nd, m k = some nd ∧ uval (env nd.fd) = .error e ∧
      (update_stats_loop env ks m).1 k = m k := by
  induction ks generalizing m with
  | nil => cases he
  | cons k0 ks ih =>
    cases hmk : m k0 with
    | none =>
      simp only [update_stats_loop, hmk] at he ⊢
      obtain ⟨k, hk, nd, hmnd, hux, hfin⟩ := ih m he
      exact ⟨k, List.mem_cons_of_mem _ hk, nd, hmnd, hux, hfin⟩
    | some nd0 =>
      cases hu : update_one ⟨env nd0.fd, 0⟩ with
      | error e0 =>
        have hloop : update_stats_loop env (k0 :: ks) m = (m, some e0) := by
          simp [update_stats_loop, hmk, hu]
        rw [hloop] at he ⊢
        have he0 : e0 = e := Option.some.inj he
        subst he0
        exact ⟨k0, List.mem_cons_self _ _, nd0, hmk,
          uval_error_of_update _ _ hu, rfl⟩
      | ok vh =>
        obtain ⟨v0, h1⟩ := vh
        simp only [update_stats_loop, hmk, hu] at he ⊢
        obtain ⟨k, hk, nd, hmnd, hux, hfin⟩ := ih _ he
        have hkk0 : k ≠ k0 := by
          intro h
          subst h
          rw [if_pos rfl] at hmnd
          have hnd : nd = ⟨v0, nd0.fd⟩ := (Option.some.inj hmnd).symm
          rw [hnd] at hux
          rw [uval_ok_of_update _ _ _ hu] at hux
          cases hux
        rw [if_neg hkk0] at hmnd hfin
        exact ⟨k, List.mem_cons_of_mem _ hk, nd, hmnd, hux, hfin⟩

/-- A kind that is already tracked is never touched by a subscribe call:
its map entry stays exactly what it was and it is not opened again. -/
theorem set_stats_loop_tracked {K : Type} [DecidableEq K] (openOk : K → Bool)
    (ks : List K) :
    ∀ (m : StatMap K) (next_fd : Int) (k : K) (nd : netdata),
      m k = some nd →
      (set_stats_loop openOk ks m next_fd).1 k = some nd ∧
        k ∉ (set_stats_loop openOk ks m next_fd).2.2.1 := by
  induction ks with
  | nil => intro m next_fd k nd hm; simpa [set_stats_loop] using hm
  | cons k0 ks ih =>
    intro m next_fd k nd hm
    by_cases h0 : (m k0).isSome
    · simp only [set_stats_loop, h0, if_pos]
      exact ih m next_fd k nd hm
    · have hne : k ≠ k0 := fun h => by
        subst h; rw [hm] at h0; exact h0 rfl
      by_cases hop : openOk k0
      · have hm1 : (fun j => if j = k0 then some (⟨0, next_fd⟩ : netdata)
            else m j) k = some nd := by
          simp only [if_neg hne]; exact hm
        have hrec := ih (fun j => if j = k0 then some (⟨0, next_fd⟩ : netdata)
          else m j) (next_fd + 1) k nd hm1
        simp only [set_stats_loop, h0, hop, if_false, if_true, Bool.false_eq_true]
        constructor
        · exact hrec.1
        · intro hmem
          cases List.mem_cons.1 hmem with
          | inl h => exact hne h
          | inr h => exact hrec.2 h
      · simp only [set_stats_loop, h0, hop, if_false, Bool.false_eq_true]
        exact ⟨hm, List.not_mem_nil k⟩

/-- Every kind a subscribe call opens was untracked on entry, and no
kind is opened twice within the call. -/
theorem set_stats_loop_opened {K : Type} [DecidableEq K] (openOk : K → Bool)
    (ks : List K) :
    ∀ (m : StatMap K) (next_fd : Int),
      (∀ j ∈ (set_stats_loop openOk ks m next_fd).2.2.1, m j = none) ∧
        ((set_stats_loop openOk ks m next_fd).2.2.1).Nodup := by
  induction ks with
  | nil => intro m next_fd; simp [set_stats_loop]
  | cons k0 ks ih =>
    intro m next_fd
    by_cases h0 : (m k0).isSome
    · simp only [set_stats_loop, h0, if_pos]
      exact ih m next_fd
    · have hm0 : m k0 = none := Option.not_isSome_iff_eq_none.1 h0
      by_cases hop : openOk k0
      · have hrec := ih (fun j => if j = k0 then some (⟨0, next_fd⟩ : netdata)
          else m j) (next_fd + 1)
        simp only [set_stats_loop, h0, hop, if_false, if_true, Bool.false_eq_true]
        constructor
        · intro j hj
          cases List.mem_cons.1 hj with
          | inl h => rw [h]; exact hm0
          | inr h =>
            have := hrec.1 j h
            by_cases hjk : j = k0
            · rw [if_pos hjk] at this; cases this
            · rw [if_neg hjk] at this; exact this
        · refine List.nodup_cons.2 ⟨fun hmem => ?_, hrec.2⟩
          have := hrec.1 k0 hmem
          rw [if_pos rfl] at this
          cases this
      · simp [set_stats_loop, h0, hop]

theorem natToDigits_eq_of_lt (n : Nat) (h : n < 10) :
    natToDigits n = [Char.ofNat (48 + n)] := by
  rw [natToDigits]; simp [h]

theorem natToDigits_eq_of_ge (n : Nat) (h : ¬ n < 10) :
    natToDigits n = natToDigits (n / 10) ++ [Char.ofNat (48 + n % 10)] := by
  rw [natToDigits]; simp [h]

theorem natToDigits_ne_nil (n : Nat) : natToDigits n ≠ [] := by
  by_cases h : n < 10
  · rw [natToDigits_eq_of_lt n h]; simp
  · rw [natToDigits_eq_of_ge n h]; simp

/-- Facts about a decimal digit character `Char.ofNat (48 + d)`,
`d < 10`: its code point, digit-ness, non-space-ness, and distinctness
from the sign characters and NUL that `strtol`/`cstring` test for. -/
theorem digit_facts (d : Nat) (h : d < 10) :
    (Char.ofNat (48 + d)).toNat = 48 + d ∧
    (Char.ofNat (48 + d)).isDigit = true ∧
    isSpaceC (Char.ofNat (48 + d)) = false ∧
    Char.ofNat (48 + d) ≠ '-' ∧
    Char.ofNat (48 + d) ≠ '+' ∧
    (Char.ofNat (48 + d) != Char.ofNat 0) = true := by
  interval_cases d <;> refine ⟨by decide, by decide, by decide, by decide, by decide, by decide⟩

theorem natToDigits_digits (n : Nat) :
    ∀ c ∈ natToDigits n, ∃ d, d < 10 ∧ c = Char.ofNat (48 + d) := by
  induction n using Nat.strong_induction_on with
  | _ n ih =>
    by_cases h : n < 10
    · rw [natToDigits_eq_of_lt n h]
      intro c hc
      rw [List.mem_singleton] at hc
      exact ⟨n, h, hc⟩
    · rw [natToDigits_eq_of_ge n h]
      intro c hc
      rcases List.mem_append.1 hc with h1 | h2
      · exact ih (n / 10) (Nat.div_lt_self (by omega) (by omega)) c h1
      · rw [List.mem_singleton] at h2
        exact ⟨n % 10, Nat.mod_lt _ (by omega), h2⟩

theorem foldl_natToDigits (n : Nat) :
    ∀ acc, (natToDigits n).foldl digitStep acc =
      acc * 10 ^ (natToDigits n).length + n := by
  induction n using Nat.strong_induction_on with
  | _ n ih =>
    intro acc
    by_cases h : n < 10
    · rw [natToDigits_eq_of_lt n h]
      show digitStep acc (Char.ofNat (48 + n)) = acc * 10 ^ 1 + n
      unfold digitStep
      rw [(digit_facts n h).1]
      ring_nf
      omega
    · rw [natToDigits_eq_of_ge n h]
      rw [List.foldl_append, ih (n / 10) (Nat.div_lt_self (by omega) (by omega)) acc]
      show digitStep (acc * 10 ^ (natToDigits (n / 10)).length + n / 10)
          (Char.ofNat (48 + n % 10)) = _
      unfold digitStep
      rw [(digit_facts (n % 10) (Nat.mod_lt _ (by omega))).1]
      rw [List.length_append, List.length_singleton, pow_succ]
      have := Nat.div_add_mod n 10
      ring_nf
      omega

theorem natToDigits_length_le (k : Nat) :
    ∀ n, n < 10 ^ (k + 1) → (natToDigits n).length ≤ k + 1 := by
  induction k with
  | zero =>
    intro n h
    rw [natToDigits_eq_of_lt n (by simpa using h)]
    simp
  | succ k ih =>
    intro n h
    by_cases h0 : n < 10
    · rw [natToDigits_eq_of_lt n h0]; simp
    · rw [natToDigits_eq_of_ge n h0, List.length_append, List.length_singleton]
      have hdiv : n / 10 < 10 ^ (k + 1) := by
        rw [Nat.div_lt_iff_lt_mul (by omega)]
        calc n < 10 ^ (k + 2) := h
        _ = 10 ^ (k + 1) * 10 := by ring
      have := ih (n / 10) hdiv
      omega

/-- `strtol` parses the decimal rendering of `n` (followed by a
newline) back to `n` without `ERANGE`, provided `n` fits in a signed
long. -/
theorem strtol_natToDigits (n : Nat) (h : (n : Int) ≤ LONG_MAX) :
    strtol (natToDigits n ++ ['\n']) = ((n : Int), false) := by
  obtain ⟨c, t, hct⟩ : ∃ c t, natToDigits n = c :: t := by
    cases hnd : natToDigits n with
    | nil => exact absurd hnd (natToDigits_ne_nil n)
    | cons c t => exact ⟨c, t, rfl⟩
  obtain ⟨d, hd, hcd⟩ := natToDigits_digits n c (hct ▸ List.mem_cons_self _ _)
  have facts := digit_facts d hd
  have hnospace : (natToDigits n ++ ['\n']).dropWhile isSpaceC =
      natToDigits n ++ ['\n'] := by
    rw [hct, List.cons_append, List.dropWhile_cons, hcd, facts.2.2.1]
    simp
  have hsigncons : ∀ (c0 : Char) (rest : List Char), c0 ≠ '-' → c0 ≠ '+' →
      strtolSign (c0 :: rest) = (false, c0 :: rest) := by
    intro c0 rest h1 h2
    show (if c0 = '-' then (true, rest)
      else if c0 = '+' then (false, rest) else (false, c0 :: rest)) =
        (false, c0 :: rest)
    rw [if_neg h1, if_neg h2]
  have hsign : strtolSign (natToDigits n ++ ['\n']) =
      (false, natToDigits n ++ ['\n']) := by
    rw [hct, List.cons_append, hcd]
    exact hsigncons _ _ facts.2.2.2.1 facts.2.2.2.2.1
  have hdigs : (natToDigits n ++ ['\n']).takeWhile Char.isDigit =
      natToDigits n := by
    refine takeWhile_all_append _ _ _ (fun x hx => ?_) (by decide)
    obtain ⟨d2, hd2, hx2⟩ := natToDigits_digits n x hx
    rw [hx2]; exact (digit_facts d2 hd2).2.1
  have hlen : (natToDigits n).length ≠ 0 := by
    intro hl
    exact natToDigits_ne_nil n (List.length_eq_zero.1 hl)
  have hmag : (natToDigits n).foldl digitStep 0 = n := by
    rw [foldl_natToDigits n 0]; ring_nf
  unfold strtol
  simp only [hnospace, hsign, hdigs, hlen, if_false, hmag]
  have hge : ¬ ((n : Int) > LONG_MAX) := not_lt.2 h
  have hlt : ¬ ((n : Int) < LONG_MIN) := by
    unfold LONG_MIN
    intro hcon
    have : (0 : Int) ≤ (n : Int) := Int.natCast_nonneg n
    omega
  simp [hge, hlt]

/-- Unfolding equation for `update_one` with the rewound handle written
as a literal (the `lseek` result depends only on the resource). -/
theorem update_one_eq (h : Handle) :
    update_one h = (match readSys ⟨h.res, 0⟩ READ_SIZE with
      | (r_ret, data, h1) =>
        if r_ret = (READ_SIZE : Int) then .error .formatAnomaly
        else if r_ret ≤ 0 then .error .ioFailure
        else match strtol (cstring data) with
          | (value, erange) =>
            if erange then .error .ioFailure
            else .ok (toUInt64cast value, h1)) := rfl

/-- `update_one` on a handle at any offset over a resource holding the
decimal rendering of `n` followed by a newline: it rewinds, reads the
whole (short) content, parses it back to `n`, and leaves the offset at
end of content — for any `n` that fits in a signed long. -/
theorem update_one_natToDigits (n : Nat) (hn : n < 2 ^ 63) (pos : Nat) :
    update_one ⟨.ok (natToDigits n ++ ['\n']), pos⟩ =
      .ok (n, ⟨.ok (natToDigits n ++ ['\n']), (natToDigits n).length + 1⟩) := by
  have h19 : n < 10 ^ 19 := lt_of_lt_of_le hn (by norm_num)
  have hL : (natToDigits n).length ≤ 19 := natToDigits_length_le 18 n h19
  have hlen : (natToDigits n ++ ['\n']).length = (natToDigits n).length + 1 := by
    rw [List.length_append, List.length_singleton]
  have htake : (natToDigits n ++ ['\n']).take READ_SIZE =
      natToDigits n ++ ['\n'] :=
    List.take_of_length_le (by rw [hlen]; unfold READ_SIZE; omega)
  have hread : readSys ⟨.ok (natToDigits n ++ ['\n']), 0⟩ READ_SIZE =
      ((((natToDigits n).length + 1 : Nat) : Int), natToDigits n ++ ['\n'],
        ⟨.ok (natToDigits n ++ ['\n']), (natToDigits n).length + 1⟩) := by
    unfold readSys
    simp only [List.drop_zero, htake, hlen, Nat.zero_add]
  have hcstr : cstring (natToDigits n ++ ['\n']) = natToDigits n ++ ['\n'] := by
    refine takeWhile_all _ _ (fun x hx => ?_)
    rcases List.mem_append.1 hx with h1 | h2
    · obtain ⟨d, hd, hx2⟩ := natToDigits_digits n x h1
      rw [hx2]; exact (digit_facts d hd).2.2.2.2.2
    · rw [List.mem_singleton] at h2; rw [h2]; decide
  have hmax : (n : Int) ≤ LONG_MAX := by unfold LONG_MAX; push_cast; omega
  have hstr := strtol_natToDigits n hmax
  have hcast : toUInt64cast ((n : Int)) = n := by
    unfold toUInt64cast
    rw [Int.emod_eq_of_lt (Int.natCast_nonneg n) (by push_cast; omega)]
    exact Int.toNat_natCast n
  have hne32 : ((((natToDigits n).length + 1 : Nat) : Int) = (READ_SIZE : Int)) =
      False := by
    simp only [eq_iff_iff, iff_false]
    unfold READ_SIZE; push_cast; omega
  have hnpos : ((((natToDigits n).length + 1 : Nat) : Int) ≤ 0) = False := by
    simp only [eq_iff_iff, iff_false]
    push_cast; omega
  rw [update_one_eq]
  simp only [hread, hne32, hnpos, if_false, hcstr, hstr, hcast,
    Bool.false_eq_true]

/-! ### Claim theorems -/

/-- C1. For every tracked counter whose resource contains the text
"12345\n" (6 bytes, under the 32-byte bound), `update_one` rewinds the
handle — whatever offset a previous read left it at — and re-reads the
resource, parsing 12345 (base 10, stopping at the newline); and whenever
the `update()` call completes, the corresponding field of the snapshot
returned by `get_receive_data` equals 12345. -/
theorem C1_round_trip (env : Int → Resource) (m : StatMap rx_fields)
    (k : rx_fields) (nd : netdata) (pos : Nat)
    (hm : m k = some nd)
    (hres : env nd.fd = .ok ("12345\n".toList))
    (hok : (update_receive_data env m).2 = none) :
    update_one ⟨.ok ("12345\n".toList), pos⟩ =
      .ok (12345, ⟨.ok ("12345\n".toList), 6⟩) ∧
    rx_select (get_receive_data (update_receive_data env m).1) k = 12345 := by
  have hdig : natToDigits 12345 ++ ['\n'] = "12345\n".toList := by
    simp [natToDigits]
  have hdlen : (natToDigits 12345).length = 5 := by simp [natToDigits]
  have hupd : update_one ⟨.ok ("12345\n".toList), pos⟩ =
      .ok (12345, ⟨.ok ("12345\n".toList), 6⟩) := by
    have h := update_one_natToDigits 12345 (by norm_num) pos
    rw [hdig, hdlen] at h
    exact h
  refine ⟨hupd, ?_⟩
  obtain ⟨v, hv, hfin⟩ :=
    update_stats_loop_success env rxAll m k nd hok (mem_rxAll k) hm
  have huv : uval (env nd.fd) = .ok 12345 := by
    rw [hres]
    exact uval_ok_of_update _ _ _ (rfl :
      update_one ⟨.ok ("12345\n".toList), 0⟩ =
        .ok (12345, ⟨.ok ("12345\n".toList), 6⟩))
  rw [huv] at hv
  have hveq : v = 12345 := (Except.ok.inj hv).symm
  subst hveq
  rw [rx_select_get]
  unfold fetch_one_rx update_receive_data
  rw [hfin]

/-- Witness for C1: a monitor tracking RX_BYTES at descriptor 3 whose
resource holds "12345\n"; the handle starts at offset 7. -/
theorem C1_round_trip_witness :
    update_one ⟨.ok ("12345\n".toList), 7⟩ =
      .ok (12345, ⟨.ok ("12345\n".toList), 6⟩) ∧
    rx_select (get_receive_data (update_receive_data
      (fun _ => .ok ("12345\n".toList))
      (fun k => if k = rx_fields.RX_BYTES then some ⟨0, 3⟩ else none)).1)
      rx_fields.RX_BYTES = 12345 :=
  C1_round_trip (fun _ => .ok ("12345\n".toList))
    (fun k => if k = rx_fields.RX_BYTES then some ⟨0, 3⟩ else none)
    rx_fields.RX_BYTES ⟨0, 3⟩ 7 rfl rfl rfl

/-- C2. Contrary to the claim, a tracked resource holding the
non-numeric text "abc" is NOT rejected by `update()`: `strtol` performs
no conversion and returns 0 without touching `errno` (glibc signals an
empty conversion only through `endptr`, which `update_one` never
inspects, and sets `errno` only on range errors), so the
`errno && errno != EINTR` check does not fire.  `update_one` returns 0,
the update completes with no error of any class, and a previously cached
value 7 is silently overwritten by 0, observable in the snapshot. -/
theorem C2_nonnumeric_accepted :
    update_one ⟨.ok ("abc".toList), 0⟩ = .ok (0, ⟨.ok ("abc".toList), 3⟩) ∧
    (update_receive_data (fun _ => .ok ("abc".toList))
      (fun k => if k = rx_fields.RX_BYTES then some ⟨7, 3⟩ else none)).2
        = none ∧
    rx_select (get_receive_data (update_receive_data
      (fun _ => .ok ("abc".toList))
      (fun k => if k = rx_fields.RX_BYTES then some ⟨7, 3⟩ else none)).1)
      rx_fields.RX_BYTES = 0 :=
  ⟨rfl, rfl, rfl⟩

/-- Environment for the partial-update scenario: descriptor 3 reads
"7\n"; every other descriptor's `read` fails. -/
def cexEnv : Int → Resource :=
  fun fd => if fd = 3 then .ok ("7\n".toList) else .readError

/-- Monitor receive state for the partial-update scenario: RX_BYTES
cached 0 at descriptor 3, RX_PACKETS cached 0 at descriptor 4. -/
def cexRxMap : StatMap rx_fields := fun k =>
  if k = rx_fields.RX_BYTES then some ⟨0, 3⟩
  else if k = rx_fields.RX_PACKETS then some ⟨0, 4⟩ else none

/-- C3 counterexample. With RX_BYTES (fd 3, readable, new value 7)
and RX_PACKETS (fd 4, read fails) both tracked, `update()` aborts with
an I/O error — but RX_BYTES, updated before the failure, now caches 7
where it cached 0 before the call.  So it is false that every tracked
counter's cached value is the same after the failed `update()` as
before: partially updated state is observable through the snapshots. -/
theorem C3_partial_update_cex :
    (update_receive_data cexEnv cexRxMap).2 = some .ioFailure ∧
    cexRxMap rx_fields.RX_BYTES = some ⟨0, 3⟩ ∧
    (update_receive_data cexEnv cexRxMap).1 rx_fields.RX_BYTES
      = some ⟨7, 3⟩ ∧
    rx_select (get_receive_data (update_receive_data cexEnv cexRxMap).1)
      rx_fields.RX_BYTES = 7 :=
  ⟨rfl, rfl, rfl, rfl⟩

/-- C3 (amended). If the read of one tracked counter fails during
`update()`, the whole call aborts with that counter's error (the
transmit side is not even started), the set of tracked counters and
their descriptors is unchanged, and the failing counter's own cached
value is unchanged — but counters processed before the failure keep
their newly read values, so cached values of other tracked counters may
differ after the failed call (see `C3_partial_update_cex`). -/
theorem C3_update_abort (env : Int → Resource) (rxm : StatMap rx_fields)
    (txm : StatMap tx_fields) (e : NetError)
    (he : (update_receive_data env rxm).2 = some e) :
    (∀ j, ((update_receive_data env rxm).1 j).map netdata.fd
        = (rxm j).map netdata.fd) ∧
    (∃ k nd, rxm k = some nd ∧ uval (env nd.fd) = .error e ∧
      (update_receive_data env rxm).1 k = rxm k) ∧
    update_all env rxm txm
      = (((update_receive_data env rxm).1, txm), some e) := by
  refine ⟨fun j => update_stats_loop_shape env rxAll rxm j, ?_, ?_⟩
  · obtain ⟨k, _, nd, h1, h2, h3⟩ :=
      update_stats_loop_fail env rxAll rxm e he
    exact ⟨k, nd, h1, h2, h3⟩
  · unfold update_all
    rcases hspec : update_receive_data env rxm with ⟨m1, e1⟩
    rw [hspec] at he
    have he1 : e1 = some e := he
    subst he1
    rfl

/-- Witness for C3 (amended) at the concrete partial-update scenario. -/
theorem C3_update_abort_witness :
    ((update_receive_data cexEnv cexRxMap).1 rx_fields.RX_PACKETS).map
        netdata.fd = (cexRxMap rx_fields.RX_PACKETS).map netdata.fd ∧
    update_all cexEnv cexRxMap (emptyStat tx_fields)
      = (((update_receive_data cexEnv cexRxMap).1, emptyStat tx_fields),
          some .ioFailure) :=
  ⟨(C3_update_abort cexEnv cexRxMap (emptyStat tx_fields) .ioFailure rfl).1
      rx_fields.RX_PACKETS,
    (C3_update_abort cexEnv cexRxMap (emptyStat tx_fields) .ioFailure
      rfl).2.2⟩

/-- C4. For any handle: if the (rewound) read returns exactly
`READ_SIZE` = 32 bytes, `update_one` fails through the `RUNTIME` path
(`formatAnomaly` — the reporting path without the OS last-error
description) rather than accepting the content; if it returns zero or
fewer bytes, `update_one` fails as an I/O error (`ERROR` path, with the
OS error description).  The two error classes are distinct. -/
theorem C4_read_size_boundary (h : Handle) :
    ((readSys ⟨h.res, 0⟩ READ_SIZE).1 = (READ_SIZE : Int) →
      update_one h = .error .formatAnomaly) ∧
    ((readSys ⟨h.res, 0⟩ READ_SIZE).1 ≤ 0 →
      update_one h = .error .ioFailure) ∧
    NetError.formatAnomaly ≠ NetError.ioFailure := by
  refine ⟨?_, ?_, by decide⟩
  · intro h32
    rw [update_one_eq]
    rcases hr : readSys ⟨h.res, 0⟩ READ_SIZE with ⟨r, data, h1⟩
    rw [hr] at h32
    rw [show ((r, data, h1).1 : Int) = r from rfl] at h32
    simp [h32]
  · intro hle
    rcases hr : readSys ⟨h.res, 0⟩ READ_SIZE with ⟨r, data, h1⟩
    rw [hr] at hle
    rw [show ((r, data, h1).1 : Int) = r from rfl] at hle
    have hne : ¬ (r = (READ_SIZE : Int)) := by
      unfold READ_SIZE
      push_cast
      omega
    rw [update_one_eq, hr]
    simp [hne, hle]

/-- Witness for C4: a resource of exactly 32 bytes (32 `'1'`
characters) triggers the format-anomaly path; a resource whose read
fails (returns -1 ≤ 0) triggers the I/O-failure path. -/
theorem C4_read_size_boundary_witness :
    update_one ⟨.ok ("11111111111111111111111111111111".toList), 0⟩ =
      .error .formatAnomaly ∧
    update_one ⟨.readError, 0⟩ = .error .ioFailure :=
  ⟨(C4_read_size_boundary
      ⟨.ok ("11111111111111111111111111111111".toList), 0⟩).1 rfl,
    (C4_read_size_boundary ⟨.readError, 0⟩).2.1 (by decide)⟩

/-- C5 counterexample. 2^63 = 9223372036854775808 is a value in
[0, 2^64-1] whose decimal rendering plus newline is 20 bytes, well
inside the 32-byte bound — yet `update_one` does NOT store it:
`strtol` parses into a signed `long`, clamps at `LONG_MAX` with
`ERANGE`, and the `errno` check aborts the update with an error.  So
the full unsigned 64-bit range is not supported. -/
theorem C5_range_cex :
    (9223372036854775808 : Nat) < 2 ^ 64 ∧
    ("9223372036854775808\n".toList).length = 20 ∧
    uval (.ok ("9223372036854775808\n".toList)) = .error .ioFailure ∧
    (update_receive_data (fun _ => .ok ("9223372036854775808\n".toList))
      (fun k => if k = rx_fields.RX_BYTES then some ⟨0, 3⟩ else none)).2
        = some .ioFailure :=
  ⟨by norm_num, rfl, rfl, rfl⟩

/-- C5 (amended). The per-counter read algorithm yields the exact
counter value only over the signed-long range: for every value
n < 2^63 whose decimal rendering (plus newline) is the resource
content, `update_one` succeeds and returns exactly n, and whenever the
`update()` call completes the snapshot field of a counter tracking that
resource equals n.  (Values in [2^63, 2^64-1] instead abort `update()`
with an `ERANGE`-driven error — see the counterexample.) -/
theorem C5_long_range (n : Nat) (env : Int → Resource)
    (m : StatMap rx_fields) (k : rx_fields) (nd : netdata)
    (hn : n < 2 ^ 63)
    (hm : m k = some nd)
    (hres : env nd.fd = .ok (natToDigits n ++ ['\n']))
    (hok : (update_receive_data env m).2 = none) :
    uval (.ok (natToDigits n ++ ['\n'])) = .ok n ∧
    rx_select (get_receive_data (update_receive_data env m).1) k = n := by
  have huv : uval (.ok (natToDigits n ++ ['\n'])) = .ok n :=
    uval_ok_of_update _ _ _ (update_one_natToDigits n hn 0)
  refine ⟨huv, ?_⟩
  obtain ⟨v, hv, hfin⟩ :=
    update_stats_loop_success env rxAll m k nd hok (mem_rxAll k) hm
  rw [hres, huv] at hv
  have hveq : v = n := (Except.ok.inj hv).symm
  subst hveq
  rw [rx_select_get]
  unfold fetch_one_rx update_receive_data
  rw [hfin]

/-- Witness for C5 (amended) at n = LONG_MAX = 2^63 - 1, the largest
value the code can store: a monitor tracking RX_BYTES at descriptor 3
over a resource holding "9223372036854775807\n". -/
theorem C5_long_range_witness :
    uval (.ok (natToDigits 9223372036854775807 ++ ['\n']))
      = .ok 9223372036854775807 ∧
    rx_select (get_receive_data (update_receive_data
      (fun _ => .ok (natToDigits 9223372036854775807 ++ ['\n']))
      (fun k => if k = rx_fields.RX_BYTES then some ⟨0, 3⟩ else none)).1)
      rx_fields.RX_BYTES = 9223372036854775807 :=
  C5_long_range 9223372036854775807
    (fun _ => .ok (natToDigits 9223372036854775807 ++ ['\n']))
    (fun k => if k = rx_fields.RX_BYTES then some ⟨0, 3⟩ else none)
    rx_fields.RX_BYTES ⟨0, 3⟩ (by norm_num) rfl rfl
    (by
      have hdig : natToDigits 9223372036854775807 ++ ['\n'] =
          "9223372036854775807\n".toList := by simp [natToDigits]
      rw [show (fun _ => Resource.ok (natToDigits 9223372036854775807
          ++ ['\n'])) = (fun (_ : Int) =>
            Resource.ok ("9223372036854775807\n".toList)) by rw [hdig]]
      rfl)

/-- C6. Counter kinds outside the subscribed set always read as 0:
any untracked rx/tx kind's snapshot field is 0; updating never makes an
untracked kind tracked (so this holds regardless of how many `update()`
calls occur); right after construction (empty maps, before any
subscribe) both snapshots are all-zero aggregates; and the convenience
accessors return 0 for untracked kinds as well. -/
theorem C6_untracked_zero :
    (∀ (m : StatMap rx_fields) (k : rx_fields), m k = none →
      rx_select (get_receive_data m) k = 0) ∧
    (∀ (m : StatMap tx_fields) (k : tx_fields), m k = none →
      tx_select (get_transmit_data m) k = 0) ∧
    (∀ (env : Int → Resource) (m : StatMap rx_fields) (k : rx_fields),
      m k = none → (update_receive_data env m).1 k = none) ∧
    (∀ (env : Int → Resource) (m : StatMap tx_fields) (k : tx_fields),
      m k = none → (update_transmit_data env m).1 k = none) ∧
    get_receive_data (emptyStat rx_fields)
      = ⟨0, 0, 0, 0, 0, 0, 0, 0, 0, 0, 0⟩ ∧
    get_transmit_data (emptyStat tx_fields)
      = ⟨0, 0, 0, 0, 0, 0, 0, 0, 0, 0⟩ ∧
    (∀ m : StatMap rx_fields, m rx_fields.RX_BYTES = none →
      get_rx_bytes m = 0) ∧
    (∀ m : StatMap rx_fields, m rx_fields.RX_PACKETS = none →
      get_rx_packets m = 0) ∧
    (∀ m : StatMap tx_fields, m tx_fields.TX_BYTES = none →
      get_tx_bytes m = 0) ∧
    (∀ m : StatMap tx_fields, m tx_fields.TX_PACKETS = none →
      get_tx_packets m = 0) := by
  have hrxnone : ∀ (env : Int → Resource) (m : StatMap rx_fields)
      (k : rx_fields), m k = none → (update_receive_data env m).1 k = none := by
    intro env m k h
    have hs := update_stats_loop_shape env rxAll m k
    rw [h] at hs
    cases h2 : (update_receive_data env m).1 k with
    | none => rfl
    | some nd =>
      unfold update_receive_data at h2
      rw [h2] at hs
      cases hs
  have htxnone : ∀ (env : Int → Resource) (m : StatMap tx_fields)
      (k : tx_fields), m k = none → (update_transmit_data env m).1 k = none := by
    intro env m k h
    have hs := update_stats_loop_shape env txAll m k
    rw [h] at hs
    cases h2 : (update_transmit_data env m).1 k with
    | none => rfl
    | some nd =>
      unfold update_transmit_data at h2
      rw [h2] at hs
      cases hs
  refine ⟨?_, ?_, hrxnone, htxnone, rfl, rfl, ?_, ?_, ?_, ?_⟩
  · intro m k h
    rw [rx_select_get]
    unfold fetch_one_rx
    rw [h]
  · intro m k h
    rw [tx_select_get]
    unfold fetch_one_tx
    rw [h]
  · intro m h
    unfold get_rx_bytes fetch_one_rx
    rw [h]
  · intro m h
    unfold get_rx_packets fetch_one_rx
    rw [h]
  · intro m h
    unfold get_tx_bytes fetch_one_tx
    rw [h]
  · intro m h
    unfold get_tx_packets fetch_one_tx
    rw [h]

/-- Witness for C6 at concrete states: snapshot field of an untracked
kind (RX_PACKETS while only RX_BYTES is tracked) is 0; an untracked
kind stays untracked across an update; pre-subscribe snapshots are
all-zero; `get_tx_bytes` of the empty state is 0. -/
theorem C6_untracked_zero_witness :
    rx_select (get_receive_data
      (fun k => if k = rx_fields.RX_BYTES then some ⟨9, 3⟩ else none))
      rx_fields.RX_PACKETS = 0 ∧
    (update_receive_data (fun _ => .ok ("12345\n".toList))
      (fun k => if k = rx_fields.RX_BYTES then some ⟨9, 3⟩ else none)).1
      rx_fields.RX_PACKETS = none ∧
    get_receive_data (emptyStat rx_fields)
      = ⟨0, 0, 0, 0, 0, 0, 0, 0, 0, 0, 0⟩ ∧
    get_tx_bytes (emptyStat tx_fields) = 0 :=
  ⟨C6_untracked_zero.1
      (fun k => if k = rx_fields.RX_BYTES then some ⟨9, 3⟩ else none)
      rx_fields.RX_PACKETS rfl,
    C6_untracked_zero.2.2.1 (fun _ => .ok ("12345\n".toList))
      (fun k => if k = rx_fields.RX_BYTES then some ⟨9, 3⟩ else none)
      rx_fields.RX_PACKETS rfl,
    C6_untracked_zero.2.2.2.2.1,
    C6_untracked_zero.2.2.2.2.2.2.2.2.1 (emptyStat tx_fields) rfl⟩

/-- C7. Subscribing is idempotent, for both directions: requesting
a kind that is already tracked is a complete no-op (map, descriptor
allocator, opened list and error are all unchanged — no second open, no
error); in any subscribe call an already-tracked kind is never re-opened
and its entry is never modified; and every kind a call opens was
previously untracked, each opened at most once. -/
theorem C7_subscribe_idempotent :
    (∀ (openOk : rx_fields → Bool) (m : StatMap rx_fields) (next_fd : Int)
        (k : rx_fields) (nd : netdata), m k = some nd →
      set_rx_stats_to_update openOk [k] m next_fd = (m, next_fd, [], none)) ∧
    (∀ (openOk : rx_fields → Bool) (ks : List rx_fields)
        (m : StatMap rx_fields) (next_fd : Int) (k : rx_fields)
        (nd : netdata), m k = some nd →
      (set_rx_stats_to_update openOk ks m next_fd).1 k = some nd ∧
        k ∉ (set_rx_stats_to_update openOk ks m next_fd).2.2.1) ∧
    (∀ (openOk : rx_fields → Bool) (ks : List rx_fields)
        (m : StatMap rx_fields) (next_fd : Int),
      (∀ j ∈ (set_rx_stats_to_update openOk ks m next_fd).2.2.1,
          m j = none) ∧
        ((set_rx_stats_to_update openOk ks m next_fd).2.2.1).Nodup) ∧
    (∀ (openOk : tx_fields → Bool) (m : StatMap tx_fields) (next_fd : Int)
        (k : tx_fields) (nd : netdata), m k = some nd →
      set_tx_stats_to_update openOk [k] m next_fd = (m, next_fd, [], none)) ∧
    (∀ (openOk : tx_fields → Bool) (ks : List tx_fields)
        (m : StatMap tx_fields) (next_fd : Int) (k : tx_fields)
        (nd : netdata), m k = some nd →
      (set_tx_stats_to_update openOk ks m next_fd).1 k = some nd ∧
        k ∉ (set_tx_stats_to_update openOk ks m next_fd).2.2.1) ∧
    (∀ (openOk : tx_fields → Bool) (ks : List tx_fields)
        (m : StatMap tx_fields) (next_fd : Int),
      (∀ j ∈ (set_tx_stats_to_update openOk ks m next_fd).2.2.1,
          m j = none) ∧
        ((set_tx_stats_to_update openOk ks m next_fd).2.2.1).Nodup) := by
  have hsingle : ∀ {K : Type} [DecidableEq K] (openOk : K → Bool)
      (m : StatMap K) (next_fd : Int) (k : K) (nd : netdata),
      m k = some nd →
      set_stats_loop openOk [k] m next_fd = (m, next_fd, [], none) := by
    intro K _ openOk m next_fd k nd hm
    have h1 : (m k).isSome = true := by rw [hm]; rfl
    simp [set_stats_loop, h1]
  refine ⟨?_, ?_, ?_, ?_, ?_, ?_⟩
  · intro openOk m next_fd k nd hm
    exact hsingle openOk m next_fd k nd hm
  · intro openOk ks m next_fd k nd hm
    exact set_stats_loop_tracked openOk ks m next_fd k nd hm
  · intro openOk ks m next_fd
    exact set_stats_loop_opened openOk ks m next_fd
  · intro openOk m next_fd k nd hm
    exact hsingle openOk m next_fd k nd hm
  · intro openOk ks m next_fd k nd hm
    exact set_stats_loop_tracked openOk ks m next_fd k nd hm
  · intro openOk ks m next_fd
    exact set_stats_loop_opened openOk ks m next_fd

/-- Witness for C7: with RX_BYTES already tracked (value 7, fd 3),
requesting `{RX_BYTES}` again is a no-op at allocator state 9, and a
mixed request `{RX_BYTES, RX_PACKETS}` leaves the RX_BYTES entry intact
and does not re-open it. -/
theorem C7_subscribe_idempotent_witness :
    set_rx_stats_to_update (fun _ => true) [rx_fields.RX_BYTES]
      (fun k => if k = rx_fields.RX_BYTES then some ⟨7, 3⟩ else none) 9
      = ((fun k => if k = rx_fields.RX_BYTES then some ⟨7, 3⟩ else none),
          9, [], none) ∧
    (set_rx_stats_to_update (fun _ => true)
      [rx_fields.RX_BYTES, rx_fields.RX_PACKETS]
      (fun k => if k = rx_fields.RX_BYTES then some ⟨7, 3⟩ else none) 9).1
      rx_fields.RX_BYTES = some ⟨7, 3⟩ ∧
    rx_fields.RX_BYTES ∉ (set_rx_stats_to_update (fun _ => true)
      [rx_fields.RX_BYTES, rx_fields.RX_PACKETS]
      (fun k => if k = rx_fields.RX_BYTES then some ⟨7, 3⟩ else none) 9).2.2.1 :=
  ⟨C7_subscribe_idempotent.1 (fun _ => true)
      (fun k => if k = rx_fields.RX_BYTES then some ⟨7, 3⟩ else none) 9
      rx_fields.RX_BYTES ⟨7, 3⟩ rfl,
    (C7_subscribe_idempotent.2.1 (fun _ => true)
      [rx_fields.RX_BYTES, rx_fields.RX_PACKETS]
      (fun k => if k = rx_fields.RX_BYTES then some ⟨7, 3⟩ else none) 9
      rx_fields.RX_BYTES ⟨7, 3⟩ rfl).1,
    (C7_subscribe_idempotent.2.1 (fun _ => true)
      [rx_fields.RX_BYTES, rx_fields.RX_PACKETS]
      (fun k => if k = rx_fields.RX_BYTES then some ⟨7, 3⟩ else none) 9
      rx_fields.RX_BYTES ⟨7, 3⟩ rfl).2⟩

/-- Close-failure oracle for the destructor scenario: closing
descriptor 5 fails, every other close succeeds. -/
def cexCloseOk : Int → Bool := fun fd => !(fd == 5)

/-- Monitor receive state for the destructor scenario: a single tracked
counter (RX_BYTES) at descriptor 5. -/
def cexRxOne : StatMap rx_fields := fun k =>
  if k = rx_fields.RX_BYTES then some ⟨0, 5⟩ else none

/-- C8 counterexample. With one tracked handle at descriptor 5 and
a `close` that fails on it, destruction does call `close(5)` (once) —
but the loop body is bare `close(i->second.fd);`: the return value is
dropped, so the failure is not reported at all (the report list is
empty), contradicting the claim that any close failure is reported
non-fatally. -/
theorem C8_close_report_cex :
    cexCloseOk 5 = false ∧
    destructor cexCloseOk cexRxOne (emptyStat tx_fields) = ([5], []) :=
  ⟨rfl, rfl⟩

/-- C8 (amended). Destruction calls `close` exactly once per
tracked counter handle (all rx handles in kind order, then all tx
handles), and its behaviour is entirely independent of close results —
no failure is raised and no handle is skipped because an earlier close
failed — but close failures are not reported either: the loop ignores
`close`'s return value, so the report list is always empty. -/
theorem C8_destructor_closes (closeOk : Int → Bool)
    (rxm : StatMap rx_fields) (txm : StatMap tx_fields) :
    destructor closeOk rxm txm = (trackedFds rxm txm, []) ∧
    (∀ k nd, rxm k = some nd → nd.fd ∈ (destructor closeOk rxm txm).1) ∧
    (∀ k nd, txm k = some nd → nd.fd ∈ (destructor closeOk rxm txm).1) := by
  have h := close_loop_spec closeOk (trackedFds rxm txm)
  refine ⟨h, ?_, ?_⟩
  · intro k nd hk
    unfold destructor
    rw [h]
    exact trackedFds_mem_rx rxm txm k nd hk
  · intro k nd hk
    unfold destructor
    rw [h]
    exact trackedFds_mem_tx rxm txm k nd hk

/-- Witness for C8 (amended) at the concrete destructor scenario:
descriptor 5 appears among the closed descriptors even though its
close fails, and the close sequence is exactly the tracked-handle
list. -/
theorem C8_destructor_closes_witness :
    destructor cexCloseOk cexRxOne (emptyStat tx_fields)
      = (trackedFds cexRxOne (emptyStat tx_fields), []) ∧
    (5 : Int) ∈ (destructor cexCloseOk cexRxOne (emptyStat tx_fields)).1 :=
  ⟨(C8_destructor_closes cexCloseOk cexRxOne (emptyStat tx_fields)).1,
    (C8_destructor_closes cexCloseOk cexRxOne (emptyStat tx_fields)).2.1
      rx_fields.RX_BYTES ⟨0, 5⟩ rfl⟩

/-- C9. The null-terminator store `rbuf[r_ret] = '\0'` is always in
bounds: on every path of `update_one` that reaches it — i.e. whenever
the read return value is neither the full `READ_SIZE` (which raises the
format anomaly first) nor ≤ 0 (which raises the I/O error) — the number
of bytes read satisfies 0 < r_ret < 32, so index `r_ret` lies inside
the 32-byte buffer. -/
theorem C9_null_write_in_bounds (h : Handle)
    (h32 : (readSys ⟨h.res, 0⟩ READ_SIZE).1 ≠ (READ_SIZE : Int))
    (hpos : ¬ (readSys ⟨h.res, 0⟩ READ_SIZE).1 ≤ 0) :
    0 < (readSys ⟨h.res, 0⟩ READ_SIZE).1 ∧
      (readSys ⟨h.res, 0⟩ READ_SIZE).1 < (READ_SIZE : Int) := by
  have hle : (readSys ⟨h.res, 0⟩ READ_SIZE).1 ≤ (READ_SIZE : Int) := by
    cases hres : h.res with
    | readError =>
      norm_num [readSys, READ_SIZE]
    | ok content =>
      simp only [readSys, List.drop_zero]
      have hlt : (content.take READ_SIZE).length ≤ READ_SIZE := by
        rw [List.length_take]; omega
      exact_mod_cast hlt
  constructor
  · omega
  · omega

/-- Witness for C9: a one-byte resource "7" reads 1 byte; 0 < 1 < 32. -/
theorem C9_null_write_in_bounds_witness :
    0 < (readSys ⟨Resource.ok ['7'], 0⟩ READ_SIZE).1 ∧
      (readSys ⟨Resource.ok ['7'], 0⟩ READ_SIZE).1 < (READ_SIZE : Int) :=
  C9_null_write_in_bounds ⟨Resource.ok ['7'], 0⟩ (by decide) (by decide)

/-- C10. A tracked resource containing "-5\n" is not rejected:
`strtol` accepts the sign and parses the long value -5 with no error,
the cast to `uint64_t` wraps it to 2^64 - 5 = 18446744073709551611,
`update()` completes, and the snapshot reports the wrapped value. -/
theorem C10_negative_wraparound :
    update_one ⟨.ok ("-5\n".toList), 0⟩ =
      .ok (2 ^ 64 - 5, ⟨.ok ("-5\n".toList), 3⟩) ∧
    (update_receive_data (fun _ => .ok ("-5\n".toList))
      (fun k => if k = rx_fields.RX_BYTES then some ⟨0, 3⟩ else none)).2
        = none ∧
    rx_select (get_receive_data (update_receive_data
      (fun _ => .ok ("-5\n".toList))
      (fun k => if k = rx_fields.RX_BYTES then some ⟨0, 3⟩ else none)).1)
      rx_fields.RX_BYTES = 2 ^ 64 - 5 :=
  ⟨rfl, rfl, rfl⟩

end NetworkStats
